import Mathlib

/-!
A shallow embedding of the dhi-oss-tracker service (Go) and proofs about it:
the GitHub search client (internal/github/client.go), the REST handlers
(internal/api/api.go) and the SQLite store (internal/db/db.go).

Modelling conventions: Go strings are Lean `String`, or `List Char` where
character indexing matters; `time.Time` and `time.Duration` are `Int`
(nanoseconds), with signed 64-bit wraparound made explicit where overflow
matters; the database is an in-memory list of rows; network responses and
clock readings are explicit parameters.
-/

namespace DhiOss

/-! ## strconv.Atoi and api.go parseDuration -/

/-- Decimal digit test used by the integer parser. -/
def isDigitCh (c : Char) : Bool := '0' ≤ c && c ≤ '9'

/-- Value of a list of decimal digits, most significant first. -/
def digitsVal (cs : List Char) : Nat :=
  cs.foldl (fun n c => n * 10 + (c.toNat - 48)) 0

/-- One or more decimal digits, and nothing else; `none` otherwise. -/
def parseDigits (cs : List Char) : Option Nat :=
  if !cs.isEmpty && cs.all isDigitCh then some (digitsVal cs) else none

/-- Largest value of Go's 64-bit `int`. -/
def int64Max : Int := 9223372036854775807

/-- Smallest value of Go's 64-bit `int`. -/
def int64Min : Int := -9223372036854775808

/-- Model of Go `strconv.Atoi`: an optional sign followed by one or more
decimal digits, whose value fits a 64-bit int; every other string is an
error (`none`). -/
def Atoi (cs : List Char) : Option Int :=
  match cs with
  | '+' :: rest => (parseDigits rest).bind fun n =>
      if (n : Int) ≤ int64Max then some (n : Int) else none
  | '-' :: rest => (parseDigits rest).bind fun n =>
      if int64Min ≤ -(n : Int) then some (-(n : Int)) else none
  | other => (parseDigits other).bind fun n =>
      if (n : Int) ≤ int64Max then some (n : Int) else none

/-- One hour in nanoseconds (Go `time.Hour`). -/
def Hour : Int := 3600000000000

/-- Signed 64-bit wraparound: the overflow behaviour of Go's
`time.Duration` (an `int64`) under multiplication. -/
def int64Wrap (n : Int) : Int :=
  (n + 9223372036854775808) % 18446744073709551616 - 9223372036854775808

/-- Model of api.go `parseDuration` (lines 333-355): strings shorter than
two characters are invalid; the prefix before the final character must
parse with `Atoi`; the final character selects the unit, `d` for days,
`w` for weeks, `h` for hours, anything else is invalid. -/
def parseDuration (s : List Char) : Option Int :=
  if s.length < 2 then none
  else
    match Atoi s.dropLast with
    | none => none
    | some value =>
      let unit := s.getLastD ' '
      if unit = 'd' then some (int64Wrap (value * 24 * Hour))
      else if unit = 'w' then some (int64Wrap (value * 7 * 24 * Hour))
      else if unit = 'h' then some (int64Wrap (value * Hour))
      else none

/-- Outcome of api.go `handleNewProjects` as far as input validation and the
cutoff computation go: a 400 response for a malformed `since` parameter, or
the instant `now - duration` that the store is then queried with. -/
inductive NewProjectsResponse
  | badRequest
  | ok (cutoff : Int)
deriving DecidableEq

/-- Model of api.go `handleNewProjects` (lines 302-330): an absent `since`
parameter defaults to `7d`; a parse failure is rejected with 400; otherwise
the handler queries for projects first seen after `now - duration`. -/
def handleNewProjects (now : Int) (sinceParam : List Char) : NewProjectsResponse :=
  let sinceStr := if sinceParam.isEmpty then ['7', 'd'] else sinceParam
  match parseDuration sinceStr with
  | none => .badRequest
  | some duration => .ok (now - duration)

/-! ## api.go handleProjects: numeric filter parsing -/

/-- db.ProjectFilter, the filter handed to ListProjects. -/
structure ProjectFilter where
  MinStars : Int := 0
  MaxStars : Int := 0
  Search : List Char := []
  SourceType : List Char := []
  SortBy : List Char := []
  SortOrder : List Char := []
  Limit : Int := 0
  Offset : Int := 0
deriving DecidableEq

/-- The query parameters `handleProjects` reads. An absent parameter is the
empty string, as Go's `url.Values.Get` returns. -/
structure ProjectsQuery where
  search : List Char := []
  sourceType : List Char := []
  sort : List Char := []
  order : List Char := []
  minStars : List Char := []
  maxStars : List Char := []
  limit : List Char := []
  offset : List Char := []
deriving DecidableEq

/-- One numeric filter field of api.go `handleProjects` (lines 58-77): when
the parameter is present and `Atoi` accepts it the field is set, otherwise
the field keeps its previous (zero) value. -/
def numericParam (param : List Char) (cur : Int) : Int :=
  if param.isEmpty then cur
  else
    match Atoi param with
    | some v => v
    | none => cur

/-- Outcome of api.go `handleProjects`: a 405 for the wrong method, or a 200
carrying the filter the store is queried with (the database read is modelled
as succeeding; its failure is the only 500 path). -/
inductive ProjectsResponse
  | methodNotAllowed
  | ok (filter : ProjectFilter)
deriving DecidableEq

/-- Model of api.go `handleProjects` (lines 43-88). -/
def handleProjects (method : String) (q : ProjectsQuery) : ProjectsResponse :=
  if method ≠ "GET" then .methodNotAllowed
  else
    .ok { Search := q.search, SourceType := q.sourceType,
          SortBy := q.sort, SortOrder := q.order,
          MinStars := numericParam q.minStars 0,
          MaxStars := numericParam q.maxStars 0,
          Limit := numericParam q.limit 0,
          Offset := numericParam q.offset 0 }

/-! ## db.go: the projects table and UpsertProject -/

namespace db

/-- The field values db.go `UpsertProject` binds into its INSERT: the eight
columns of `db.Project` that come from the caller (the id and the timestamp
columns are filled by the database itself). -/
structure Project where
  RepoFullName : String
  GitHubURL : String
  Stars : Int
  Description : String
  PrimaryLanguage : String
  DockerfilePath : String
  FileURL : String
  SourceType : String
deriving DecidableEq

/-- A stored row of the `projects` table (id omitted: no claim touches it). -/
structure ProjectRow where
  RepoFullName : String
  GitHubURL : String
  Stars : Int
  Description : String
  PrimaryLanguage : String
  DockerfilePath : String
  FileURL : String
  SourceType : String
  FirstSeenAt : Int
  LastSeenAt : Int
  CreatedAt : Int
  UpdatedAt : Int
deriving DecidableEq

/-- The row the INSERT branch of `UpsertProject` writes: every timestamp
column is CURRENT_TIMESTAMP. -/
def insertRow (now : Int) (p : Project) : ProjectRow :=
  { RepoFullName := p.RepoFullName, GitHubURL := p.GitHubURL, Stars := p.Stars,
    Description := p.Description, PrimaryLanguage := p.PrimaryLanguage,
    DockerfilePath := p.DockerfilePath, FileURL := p.FileURL,
    SourceType := p.SourceType,
    FirstSeenAt := now, LastSeenAt := now, CreatedAt := now, UpdatedAt := now }

/-- The ON CONFLICT branch of `UpsertProject`: overwrite stars, description,
language, file path, file URL and source type, bump last-seen and
updated-at; first-seen, created-at and the GitHub URL are left alone. -/
def conflictUpdate (now : Int) (p : Project) (r : ProjectRow) : ProjectRow :=
  { r with
    Stars := p.Stars
    Description := p.Description
    PrimaryLanguage := p.PrimaryLanguage
    DockerfilePath := p.DockerfilePath
    FileURL := p.FileURL
    SourceType := p.SourceType
    LastSeenAt := now
    UpdatedAt := now }

/-- Model of db.go `UpsertProject` (lines 116-132): insert on a new
repo_full_name, ON CONFLICT update the mutable columns of the matching row. -/
def UpsertProject (now : Int) (p : Project) (t : List ProjectRow) : List ProjectRow :=
  if t.any (fun r => r.RepoFullName == p.RepoFullName) then
    t.map (fun r => if r.RepoFullName == p.RepoFullName then conflictUpdate now p r else r)
  else t ++ [insertRow now p]

/-- A row of the `refresh_jobs` table (db.RefreshJob). -/
structure RefreshJob where
  ID : Nat
  Status : String
  StartedAt : Option Int
  CompletedAt : Option Int
  ProjectsFound : Nat
  ErrorMessage : String
  CreatedAt : Int
deriving DecidableEq

/-- Model of db.go `CreateRefreshJob`: append a `pending` row; the
autoincrement id is one past the row count. -/
def CreateRefreshJob (now : Int) (jobs : List RefreshJob) : Nat × List RefreshJob :=
  let jid := jobs.length + 1
  (jid, jobs ++ [{ ID := jid, Status := "pending", StartedAt := none,
                   CompletedAt := none, ProjectsFound := 0, ErrorMessage := "",
                   CreatedAt := now }])

/-- UPDATE of the row(s) whose id matches. -/
def updateJob (jid : Nat) (f : RefreshJob → RefreshJob) (jobs : List RefreshJob) :
    List RefreshJob :=
  jobs.map (fun j => if j.ID = jid then f j else j)

/-- Model of db.go `StartRefreshJob`. -/
def StartRefreshJob (jid : Nat) (now : Int) (jobs : List RefreshJob) : List RefreshJob :=
  updateJob jid
    (fun j => { j with
      Status := "running"
      StartedAt := some now })
    jobs

/-- Model of db.go `CompleteRefreshJob`. -/
def CompleteRefreshJob (jid : Nat) (found : Nat) (now : Int) (jobs : List RefreshJob) :
    List RefreshJob :=
  updateJob jid
    (fun j => { j with
      Status := "completed"
      CompletedAt := some now
      ProjectsFound := found })
    jobs

/-- Model of db.go `FailRefreshJob`. -/
def FailRefreshJob (jid : Nat) (msg : String) (now : Int) (jobs : List RefreshJob) :
    List RefreshJob :=
  updateJob jid
    (fun j => { j with
      Status := "failed"
      CompletedAt := some now
      ErrorMessage := msg })
    jobs

end db

/-! ## github/client.go: search queries, dedup merge, pagination, retries -/

namespace github

/-- The fixed, ordered query list of client.go `GetSearchQueries`. -/
def GetSearchQueries : List (String × String) :=
  [("Dockerfiles", "\"FROM dhi.io\" filename:Dockerfile"),
   ("YAML/K8s", "\"image: dhi.io/\" language:YAML"),
   ("GitHub Actions", "\"dhi.io/\" path:.github/workflows")]

/-- A code search hit (client.go CodeSearchResult): the file path and the
repository's full name. -/
structure CodeSearchResult where
  path : String
  repoFullName : String
deriving DecidableEq

/-- client.go SearchResult: a repo with the file where dhi.io was found. -/
structure SearchResult where
  RepoFullName : String
  FilePath : String
  FileURL : String
  SourceType : String
deriving DecidableEq

/-- The file link SearchDHIUsage builds for a hit. -/
def fileURLFor (repo path : String) : String :=
  "https://github.com/" ++ repo ++ "/blob/HEAD/" ++ path

/-- The SearchResult recorded for a hit of the query named `queryName`. -/
def resultOf (queryName : String) (item : CodeSearchResult) : SearchResult :=
  { RepoFullName := item.repoFullName, FilePath := item.path,
    FileURL := fileURLFor item.repoFullName item.path, SourceType := queryName }

/-- The dedup map of SearchDHIUsage, keyed by repository full name. -/
def RepoMap := List (String × SearchResult)

/-- Lookup in the dedup map. -/
def lookupRepo (repo : String) (acc : List (String × SearchResult)) : Option SearchResult :=
  (acc.find? (fun e => e.1 == repo)).map (fun e => e.2)

/-- The per-item insert of SearchDHIUsage (client.go lines 171-181): a hit
is added only if its repository is not already in the map. -/
def mergeItem (acc : List (String × SearchResult)) (queryName : String)
    (item : CodeSearchResult) : List (String × SearchResult) :=
  if acc.any (fun e => e.1 == item.repoFullName) then acc
  else acc ++ [(item.repoFullName, resultOf queryName item)]

/-- The items of all pages of all queries, folded in the order SearchDHIUsage
processes them: queries in declared order, pages in order, items in order. -/
def mergeItems (acc : List (String × SearchResult))
    (hits : List (String × CodeSearchResult)) : List (String × SearchResult) :=
  hits.foldl (fun a h => mergeItem a h.1 h.2) acc

/-- The pagination loop of SearchDHIUsage for one query (client.go lines
144-203), watching only what the stop conditions read: `env page` is the
number of items the page returned and the response's reported total_count.
The loop starts at page 1; it stops at a page with fewer than 100 items,
when `page * 100` reaches the reported total, or at the hard cap of 10
pages; otherwise it moves to the next page. Fuel 10 covers every reachable
page number. -/
def lastPageAux (env : Nat → Nat × Nat) : Nat → Nat → Nat
  | 0, page => page
  | fuel + 1, page =>
    if (env page).1 < 100 then page
    else if (env page).2 ≤ page * 100 then page
    else if 10 ≤ page then page
    else lastPageAux env fuel (page + 1)

/-- The page at which one query's pagination stops. -/
def lastPage (env : Nat → Nat × Nat) : Nat := lastPageAux env 10 1

/-- Cumulative number of items returned by pages 1..q. -/
def cumItems (env : Nat → Nat × Nat) (q : Nat) : Nat :=
  (List.range q).foldl (fun a i => a + (env (i + 1)).1) 0

/-- Outcome of one HTTP request in the model: a usable response, a 403
throttling response, or another error. -/
inductive ReqOutcome
  | ok
  | rateLimited
  | otherError
deriving DecidableEq

/-- The fixed throttling cooldown both retry sites sleep (60 seconds). -/
def cooldownSeconds : Nat := 60

/-- The retry behaviour of the search page request (client.go lines
155-164): before each attempt the loop observes cancellation; a throttled
response sleeps the cooldown and retries the same page; any other outcome
leaves the retry cycle. Returns the number of requests issued before the
cycle is left (by response, other error, or cancellation), or `none` if
after `fuel` attempts the loop is still retrying. -/
def searchPageAttempts (resp : Nat → ReqOutcome) (canceled : Nat → Bool) :
    Nat → Nat → Option Nat
  | 0, _ => none
  | fuel + 1, i =>
    if canceled i then some i
    else
      match resp i with
      | .rateLimited => searchPageAttempts resp canceled fuel (i + 1)
      | _ => some (i + 1)

/-- client.go RepoDetails: the metadata of one repository. -/
structure RepoDetails where
  FullName : String
  HTMLURL : String
  Description : String
  StargazersCount : Int
  Language : String
deriving DecidableEq

/-- Outcome of one GetRepoDetails call. -/
inductive DetailOutcome
  | got (d : RepoDetails)
  | rateLimited
  | otherError
deriving DecidableEq

/-- The per-repository metadata lookup of FetchAllProjects (client.go lines
335-352): one call; on a rate-limited error, sleep the cooldown and retry
exactly once; a second failure — or any non-throttling error — skips the
repository. Returns the details (if any), the number of requests made, and
the seconds slept in cooldowns. -/
def fetchDetailsWithRetry (resp : Nat → DetailOutcome) :
    Option RepoDetails × Nat × Nat :=
  match resp 0 with
  | .got d => (some d, 1, 0)
  | .otherError => (none, 1, 0)
  | .rateLimited =>
    match resp 1 with
    | .got d => (some d, 2, cooldownSeconds)
    | _ => (none, 2, cooldownSeconds)

/-- client.go Project: a search hit joined with repository metadata. This is
everything FetchAllProjects produces per repository — there is no adoption
timestamp and no adoption commit link among its fields. -/
structure Project where
  RepoFullName : String
  GitHubURL : String
  Stars : Int
  Description : String
  PrimaryLanguage : String
  DockerfilePath : String
  FileURL : String
  SourceType : String
deriving DecidableEq

/-- A request FetchAllProjects could issue to the GitHub API. The commits
endpoint (`GET /repos/OWNER/REPO/commits?path=...`, used only by the
never-called GetFileFirstCommit) is in the vocabulary so that its absence
from a run's request log is expressible. -/
inductive ApiRequest
  | searchPage (query : String) (page : Nat)
  | repoDetails (repoFullName : String)
  | commitHistory (repoFullName : String) (filePath : String) (perPage : Nat)
deriving DecidableEq

/-- Whether a request walks a file's commit history. -/
def isCommitHistoryReq : ApiRequest → Bool
  | .commitHistory _ _ _ => true
  | _ => false

/-- One iteration of the enrichment loop of FetchAllProjects (client.go
lines 321-368): fetch the repository's details (with the single throttling
retry), log the requests made, and on success join the details with the
search result into a Project; on failure the repository is skipped. -/
def fetchStep (detailEnv : String → Nat → DetailOutcome)
    (acc : List Project × List ApiRequest) (entry : String × SearchResult) :
    List Project × List ApiRequest :=
  let r := fetchDetailsWithRetry (detailEnv entry.1)
  let log := acc.2 ++ (List.range r.2.1).map (fun _ => ApiRequest.repoDetails entry.1)
  match r.1 with
  | none => (acc.1, log)
  | some d =>
    (acc.1 ++ [{ RepoFullName := d.FullName, GitHubURL := d.HTMLURL,
                 Stars := d.StargazersCount, Description := d.Description,
                 PrimaryLanguage := d.Language,
                 DockerfilePath := entry.2.FilePath,
                 FileURL := entry.2.FileURL,
                 SourceType := entry.2.SourceType }],
     log)

/-- The enrichment stage of FetchAllProjects (client.go lines 318-368): the
loop over the dedup map. Returns the projects and the log of requests
issued; the search stage's requests are not in this log, only the
enrichment stage's. -/
def fetchProjectsLoop (detailEnv : String → Nat → DetailOutcome)
    (repos : List (String × SearchResult)) : List Project × List ApiRequest :=
  repos.foldl (fetchStep detailEnv) ([], [])

end github

/-! ## api.go: the refresh orchestrator -/

namespace api

/-- The shared state the refresh paths touch: the single-flight flag
(`API.refreshRunning`, read and written under `refreshMu`), the refresh_jobs
table, the projects table, and the number of snapshot rows recorded. -/
structure OrchState where
  refreshRunning : Bool
  jobs : List db.RefreshJob
  projects : List db.ProjectRow
  snapshots : Nat
deriving DecidableEq

/-- What FetchAllProjects came back with inside `runRefresh`: a project
list, an error (a run past its 10-minute wall-clock timeout surfaces here
as the context's deadline error), or a panic that unwinds through
`runRefresh` (only its deferred function runs). -/
inductive FetchResult
  | ok (projects : List github.Project)
  | failure (msg : String)
  | panicked
deriving DecidableEq

/-- Which of the job-table writes of one run succeed, and how the fetch
ends. Each Bool stands for one `db.Exec` call returning without error. -/
structure RunEnv where
  startWriteOk : Bool
  fetch : FetchResult
  completeWriteOk : Bool
  failWriteOk : Bool
  snapshotWriteOk : Bool
deriving DecidableEq

/-- The field-by-field copy runRefresh makes of a github.Project into a
db.Project before upserting (api.go lines 208-218). -/
def toDbProject (p : github.Project) : db.Project :=
  { RepoFullName := p.RepoFullName, GitHubURL := p.GitHubURL, Stars := p.Stars,
    Description := p.Description, PrimaryLanguage := p.PrimaryLanguage,
    DockerfilePath := p.DockerfilePath, FileURL := p.FileURL,
    SourceType := p.SourceType }

/-- Every fetched project upserted in order (api.go lines 208-222; an upsert
error is logged and the loop continues, so the table transformation is the
same either way). -/
def upsertAll (now : Int) (ps : List github.Project) (t : List db.ProjectRow) :
    List db.ProjectRow :=
  ps.foldl (fun acc p => db.UpsertProject now (toDbProject p) acc) t

/-- The deferred function of runRefresh: clear the single-flight flag. It
runs on every exit of the function, a panic unwinding through it included. -/
def releaseFlag (st : OrchState) : OrchState := { st with refreshRunning := false }

/-- Model of api.go `runRefresh` (lines 183-236). If marking the job running
fails the function returns at once (the job keeps whatever status it had);
a fetch error fails the job; a fetch success upserts every project,
completes the job and records a snapshot; a panic reaches none of the job
writes. The deferred flag release is applied on every path. -/
def runRefresh (env : RunEnv) (now : Int) (jid : Nat) (st : OrchState) : OrchState :=
  if !env.startWriteOk then releaseFlag st
  else
    let st1 : OrchState := { st with jobs := db.StartRefreshJob jid now st.jobs }
    match env.fetch with
    | .panicked => releaseFlag st1
    | .failure msg =>
      releaseFlag (if env.failWriteOk then
        { st1 with jobs := db.FailRefreshJob jid msg now st1.jobs }
      else st1)
    | .ok ps =>
      let st2 : OrchState := { st1 with projects := upsertAll now ps st1.projects }
      let st3 : OrchState := if env.completeWriteOk then
        { st2 with jobs := db.CompleteRefreshJob jid ps.length now st2.jobs }
      else st2
      let st4 : OrchState := if env.snapshotWriteOk then
        { st3 with snapshots := st3.snapshots + 1 }
      else st3
      releaseFlag st4

/-- Outcome of the manual trigger api.go `handleRefresh`. -/
inductive RefreshResponse
  | methodNotAllowed
  | alreadyInProgress
  | serverError
  | started (jid : Nat)
deriving DecidableEq

/-- Model of api.go `handleRefresh` (lines 141-181) up to the point the
background goroutine is launched: if the flag is set, answer "already in
progress" and change nothing; otherwise set the flag, create a pending job
record (when that insert fails, clear the flag and answer 500), and return
the started job's id. `createOk` is the job INSERT succeeding. -/
def handleRefresh (method : String) (createOk : Bool) (now : Int) (st : OrchState) :
    RefreshResponse × OrchState :=
  if method ≠ "POST" then (.methodNotAllowed, st)
  else if st.refreshRunning then (.alreadyInProgress, st)
  else
    let stFlag : OrchState := { st with refreshRunning := true }
    if createOk then
      let r := db.CreateRefreshJob now stFlag.jobs
      (.started r.1, { stFlag with jobs := r.2 })
    else (.serverError, { stFlag with refreshRunning := false })

/-- Model of api.go `TriggerRefresh` (lines 241-262), the scheduled trigger:
if the flag is set the run is silently skipped (`false`); otherwise the flag
is set and a pending job created as in the manual path. -/
def TriggerRefresh (createOk : Bool) (now : Int) (st : OrchState) : Bool × OrchState :=
  if st.refreshRunning then (false, st)
  else
    let stFlag : OrchState := { st with refreshRunning := true }
    if createOk then
      let r := db.CreateRefreshJob now stFlag.jobs
      (true, { stFlag with jobs := r.2 })
    else (false, { stFlag with refreshRunning := false })

end api

/-! ## Helper lemmas -/

theorem Atoi_nil : Atoi ([] : List Char) = none := rfl

theorem Atoi_ne_nil (cs : List Char) (v : Int) (h : Atoi cs = some v) : cs ≠ [] := by
  intro hnil
  rw [hnil, Atoi_nil] at h
  exact Option.noConfusion h

theorem parseDuration_concat (cs : List Char) (v : Int) (u : Char)
    (h : Atoi cs = some v) :
    parseDuration (cs ++ [u]) =
      (if u = 'd' then some (int64Wrap (v * 24 * Hour))
       else if u = 'w' then some (int64Wrap (v * 7 * 24 * Hour))
       else if u = 'h' then some (int64Wrap (v * Hour))
       else none) := by
  have hne : cs ≠ [] := Atoi_ne_nil cs v h
  have hlen : ¬ (cs ++ [u]).length < 2 := by
    rcases cs with _ | ⟨c, cs'⟩
    · exact absurd rfl hne
    · simp [List.length_append]
  simp only [parseDuration, if_neg hlen, List.dropLast_concat, h,
    List.getLastD_concat]

theorem numericParam_of_atoi_none (p : List Char) (c : Int) (h : Atoi p = none) :
    numericParam p c = c := by
  unfold numericParam
  by_cases hp : p.isEmpty
  · simp [hp]
  · simp [hp, h]

/-! ## Claim C9 -/

/-- C9: `parseDuration` maps `<n>d` to n times 24 hours, `<n>w` to n times
7 times 24 hours, `<n>h` to n hours (as 64-bit nanosecond durations), and
fails on malformed strings; in particular `7d`, `2w`, `3h` parse as stated
and `xyz` is rejected. -/
theorem c9_parseDuration_units :
    (∀ cs v, Atoi cs = some v →
      parseDuration (cs ++ ['d']) = some (int64Wrap (v * 24 * Hour)) ∧
      parseDuration (cs ++ ['w']) = some (int64Wrap (v * 7 * 24 * Hour)) ∧
      parseDuration (cs ++ ['h']) = some (int64Wrap (v * Hour))) ∧
    parseDuration ['7', 'd'] = some (7 * 24 * Hour) ∧
    parseDuration ['2', 'w'] = some (14 * 24 * Hour) ∧
    parseDuration ['3', 'h'] = some (3 * Hour) ∧
    parseDuration ['x', 'y', 'z'] = none := by
  refine ⟨fun cs v h => ⟨?_, ?_, ?_⟩, by decide, by decide, by decide, by decide⟩
  · rw [parseDuration_concat cs v 'd' h]; rfl
  · rw [parseDuration_concat cs v 'w' h]; rfl
  · rw [parseDuration_concat cs v 'h' h]; rfl

/-! ## Claim C10 -/

/-- C10: `parseDuration` errs exactly on strings shorter than two
characters, a prefix `Atoi` rejects, or a final character other than `h`,
`d`, `w`; consequently `0d` and `-3d` are accepted with non-positive
durations, and `handleNewProjects` then answers with a cutoff at or after
`now` instead of rejecting. -/
theorem c10_parseDuration_error_iff :
    (∀ s : List Char,
      parseDuration s = none ↔
        s.length < 2 ∨ Atoi s.dropLast = none ∨
          (s.getLastD ' ' ≠ 'h' ∧ s.getLastD ' ' ≠ 'd' ∧ s.getLastD ' ' ≠ 'w')) ∧
    parseDuration ['0', 'd'] = some 0 ∧
    parseDuration ['-', '3', 'd'] = some (-259200000000000) ∧
    handleNewProjects 0 ['0', 'd'] = NewProjectsResponse.ok 0 ∧
    handleNewProjects 0 ['-', '3', 'd'] = NewProjectsResponse.ok 259200000000000 ∧
    (∀ now d s, parseDuration s = some d → d ≤ 0 →
      handleNewProjects now s = NewProjectsResponse.ok (now - d) ∧ now ≤ now - d) := by
  refine ⟨?_, by decide, by decide, by decide, by decide, ?_⟩
  · intro s
    by_cases hlen : s.length < 2
    · simp [parseDuration, hlen]
    · rcases hAtoi : Atoi s.dropLast with _ | v
      · simp [parseDuration, hlen, hAtoi]
      · simp only [parseDuration, hAtoi, if_neg hlen]
        generalize s.getLastD ' ' = u
        constructor
        · intro hnone
          refine Or.inr (Or.inr ?_)
          by_cases hd : u = 'd'
          · simp [hd] at hnone
          · by_cases hw : u = 'w'
            · simp [hd, hw] at hnone
            · by_cases hh : u = 'h'
              · simp [hd, hw, hh] at hnone
              · exact ⟨hh, hd, hw⟩
        · rintro (h | h | ⟨hh, hd, hw⟩)
          · exact absurd h hlen
          · exact Option.noConfusion h
          · simp [hh, hd, hw]
  · intro now d s hparse hle
    have hne : s ≠ [] := by
      intro hnil
      rw [hnil] at hparse
      exact Option.noConfusion ((by decide : parseDuration [] = none) ▸ hparse)
    have hemp : s.isEmpty = false := by
      rcases s with _ | ⟨c, cs⟩
      · exact absurd rfl hne
      · rfl
    refine ⟨?_, by omega⟩
    simp [handleNewProjects, hemp, hparse]

/-! ## Claim C7 -/

/-- C7 counterexample: a request whose `min_stars` parameter is malformed
(`abc`, which `Atoi` rejects) is answered with a normal 200 response and
the all-default filter — it is not rejected. -/
theorem c7_counterexample :
    Atoi ['a', 'b', 'c'] = none ∧
    handleProjects "GET" { minStars := ['a', 'b', 'c'] } =
      ProjectsResponse.ok { } := by decide

/-- C7 amended: malformed numeric filter parameters are silently ignored —
the request is handled exactly as if they were absent, each affected field
falling back to its zero default, and the handler still answers success;
for any method and parameters the handler answers either 405 or 200 (it
never crashes). -/
theorem c7_malformed_numeric_ignored (method : String) (q : ProjectsQuery)
    (hmin : Atoi q.minStars = none) (hmax : Atoi q.maxStars = none)
    (hlim : Atoi q.limit = none) (hoff : Atoi q.offset = none) :
    handleProjects "GET" q =
      ProjectsResponse.ok { Search := q.search, SourceType := q.sourceType,
                            SortBy := q.sort, SortOrder := q.order } ∧
    (handleProjects method q = ProjectsResponse.methodNotAllowed ∨
      ∃ f, handleProjects method q = ProjectsResponse.ok f) := by
  constructor
  · simp [handleProjects, numericParam_of_atoi_none _ _ hmin,
      numericParam_of_atoi_none _ _ hmax, numericParam_of_atoi_none _ _ hlim,
      numericParam_of_atoi_none _ _ hoff]
  · by_cases hm : method = "GET"
    · subst hm
      exact Or.inr ⟨_, rfl⟩
    · exact Or.inl (by simp [handleProjects, hm])

/-- C7 witness: the amended theorem applied to a concrete request whose
four numeric parameters are all malformed. -/
theorem c7_witness :
    handleProjects "GET"
      { minStars := ['a', 'b', 'c'], maxStars := ['n', 'o'],
        limit := ['-'], offset := ['9', '9', 'x'] } =
      ProjectsResponse.ok { } :=
  (c7_malformed_numeric_ignored "GET"
    { minStars := ['a', 'b', 'c'], maxStars := ['n', 'o'],
      limit := ['-'], offset := ['9', '9', 'x'] }
    (by decide) (by decide) (by decide) (by decide)).1

/-! ## Claim C4 -/

theorem upsert_absent (now : Int) (p : db.Project) (t : List db.ProjectRow)
    (h : ∀ r ∈ t, r.RepoFullName ≠ p.RepoFullName) :
    db.UpsertProject now p t = t ++ [db.insertRow now p] := by
  have hany : t.any (fun r => r.RepoFullName == p.RepoFullName) = false := by
    rw [List.any_eq_false]
    intro r hr
    simp [h r hr]
  unfold db.UpsertProject
  rw [hany]
  simp

theorem upsert_conflict_append (n1 n2 : Int) (p1 p2 : db.Project)
    (t : List db.ProjectRow)
    (hname : p2.RepoFullName = p1.RepoFullName)
    (habsent : ∀ r ∈ t, r.RepoFullName ≠ p1.RepoFullName) :
    db.UpsertProject n2 p2 (t ++ [db.insertRow n1 p1]) =
      t ++ [db.conflictUpdate n2 p2 (db.insertRow n1 p1)] := by
  have hany : (t ++ [db.insertRow n1 p1]).any
      (fun r => r.RepoFullName == p2.RepoFullName) = true := by
    simp [List.any_append, db.insertRow, hname]
  unfold db.UpsertProject
  rw [if_pos hany, List.map_append]
  congr 1
  · calc t.map (fun r => if r.RepoFullName == p2.RepoFullName then
          db.conflictUpdate n2 p2 r else r)
        = t.map id := by
          apply List.map_congr_left
          intro r hr
          rw [if_neg]
          · rfl
          · simp [hname, habsent r hr]
      _ = t := List.map_id t
  · simp [db.insertRow, hname]

theorem upsert_idem (n : Int) (p : db.Project) (t : List db.ProjectRow) :
    db.UpsertProject n p (db.UpsertProject n p t) = db.UpsertProject n p t := by
  by_cases hany : t.any (fun r => r.RepoFullName == p.RepoFullName) = true
  · have hL : db.UpsertProject n p t =
        t.map (fun r => if r.RepoFullName == p.RepoFullName then
          db.conflictUpdate n p r else r) := by
      unfold db.UpsertProject
      rw [if_pos hany]
    have hcomp : ((fun r : db.ProjectRow => r.RepoFullName == p.RepoFullName) ∘
        (fun r => if r.RepoFullName == p.RepoFullName then
          db.conflictUpdate n p r else r)) =
        (fun r : db.ProjectRow => r.RepoFullName == p.RepoFullName) := by
      funext r
      by_cases hc : (r.RepoFullName == p.RepoFullName) = true
      · simp [Function.comp, hc, db.conflictUpdate]
      · simp [Function.comp, hc]
    have hany2 : (db.UpsertProject n p t).any
        (fun r => r.RepoFullName == p.RepoFullName) = true := by
      rw [hL, List.any_map, hcomp, hany]
    rw [hL] at hany2 ⊢
    unfold db.UpsertProject
    rw [if_pos hany2, List.map_map]
    apply List.map_congr_left
    intro r _
    by_cases hc : (r.RepoFullName == p.RepoFullName) = true
    · simp only [Function.comp, hc, if_pos]
      have hc2 : ((db.conflictUpdate n p r).RepoFullName == p.RepoFullName) = true := hc
      rw [if_pos hc2]
      cases r
      rfl
    · simp only [Function.comp, hc]
      rw [if_neg (by simp [hc]), if_neg (by simp [hc])]
  · have habsent' : ∀ r ∈ t, r.RepoFullName ≠ p.RepoFullName := by
      intro r hr heq
      apply hany
      rw [List.any_eq_true]
      exact ⟨r, hr, by simp [heq]⟩
    rw [upsert_absent n p t habsent', upsert_conflict_append n n p p t rfl habsent']
    rfl

/-- C4: upserting the same repo_full_name twice (from a table without it)
leaves exactly one matching row, carrying the second call's mutable fields
(stars, description, language, file path, file URL, source type), last-seen
and updated-at stamped by the second call, and first-seen (and created-at)
from the first call; and the upsert is idempotent on identical input. -/
theorem c4_upsert_semantics (p1 p2 : db.Project) (t : List db.ProjectRow) (n1 n2 : Int)
    (hname : p2.RepoFullName = p1.RepoFullName)
    (habsent : ∀ r ∈ t, r.RepoFullName ≠ p1.RepoFullName) :
    ((db.UpsertProject n2 p2 (db.UpsertProject n1 p1 t)).filter
        (fun r => r.RepoFullName == p1.RepoFullName)) =
      [{ RepoFullName := p1.RepoFullName, GitHubURL := p1.GitHubURL,
         Stars := p2.Stars, Description := p2.Description,
         PrimaryLanguage := p2.PrimaryLanguage, DockerfilePath := p2.DockerfilePath,
         FileURL := p2.FileURL, SourceType := p2.SourceType,
         FirstSeenAt := n1, LastSeenAt := n2, CreatedAt := n1, UpdatedAt := n2 }] ∧
    (∀ (n : Int) (p : db.Project) (t' : List db.ProjectRow),
      db.UpsertProject n p (db.UpsertProject n p t') = db.UpsertProject n p t') := by
  constructor
  · rw [upsert_absent n1 p1 t habsent,
      upsert_conflict_append n1 n2 p1 p2 t hname habsent, List.filter_append]
    have h1 : t.filter (fun r => r.RepoFullName == p1.RepoFullName) = [] := by
      rw [List.filter_eq_nil_iff]
      intro r hr
      simp [habsent r hr]
    rw [h1]
    simp [db.conflictUpdate, db.insertRow]
  · exact upsert_idem

/-- Sample input for the C4 witness: first discovery of acme/app. -/
def sampleProjectV1 : db.Project :=
  { RepoFullName := "acme/app", GitHubURL := "https://github.com/acme/app",
    Stars := 1, Description := "d1", PrimaryLanguage := "Go",
    DockerfilePath := "Dockerfile", FileURL := "u1", SourceType := "Dockerfiles" }

/-- Sample input for the C4 witness: re-discovery with a different star
count and changed mutable fields. -/
def sampleProjectV2 : db.Project :=
  { RepoFullName := "acme/app", GitHubURL := "https://github.com/acme/app",
    Stars := 2, Description := "d2", PrimaryLanguage := "Go",
    DockerfilePath := "Dockerfile", FileURL := "u2", SourceType := "Dockerfiles" }

/-- C4 witness: the theorem applied to two concrete upserts of acme/app
into an empty table at times 0 and 1. -/
theorem c4_witness :
    ((db.UpsertProject 1 sampleProjectV2
        (db.UpsertProject 0 sampleProjectV1 [])).filter
        (fun r => r.RepoFullName == sampleProjectV1.RepoFullName)) =
      [{ RepoFullName := "acme/app", GitHubURL := "https://github.com/acme/app",
         Stars := 2, Description := "d2", PrimaryLanguage := "Go",
         DockerfilePath := "Dockerfile", FileURL := "u2", SourceType := "Dockerfiles",
         FirstSeenAt := 0, LastSeenAt := 1, CreatedAt := 0, UpdatedAt := 1 }] :=
  (c4_upsert_semantics sampleProjectV1 sampleProjectV2 [] 0 1 rfl
    (fun r hr => absurd hr (List.not_mem_nil r))).1

/-! ## Claim C5 -/

theorem lookupRepo_mergeItem_some (acc : List (String × github.SearchResult))
    (q : String) (i : github.CodeSearchResult) (R : String)
    (res : github.SearchResult) (h : github.lookupRepo R acc = some res) :
    github.lookupRepo R (github.mergeItem acc q i) = some res := by
  unfold github.mergeItem
  by_cases hx : acc.any (fun e => e.1 == i.repoFullName) = true
  · rw [if_pos hx]; exact h
  · rw [if_neg hx]
    unfold github.lookupRepo at h ⊢
    rw [List.find?_append]
    rcases hfind : acc.find? (fun e => e.1 == R) with _ | e
    · rw [hfind] at h; simp at h
    · rw [hfind] at h ⊢; exact h

theorem lookupRepo_mergeItems_some (hits : List (String × github.CodeSearchResult))
    (acc : List (String × github.SearchResult)) (R : String)
    (res : github.SearchResult) (h : github.lookupRepo R acc = some res) :
    github.lookupRepo R (github.mergeItems acc hits) = some res := by
  induction hits generalizing acc with
  | nil => exact h
  | cons hd tl ih =>
    exact ih _ (lookupRepo_mergeItem_some acc hd.1 hd.2 R res h)

theorem lookupRepo_none_find_none (acc : List (String × github.SearchResult))
    (R : String) (h : github.lookupRepo R acc = none) :
    acc.find? (fun e => e.1 == R) = none := by
  unfold github.lookupRepo at h
  rcases hfind : acc.find? (fun e => e.1 == R) with _ | e
  · exact hfind
  · rw [hfind] at h; simp at h

theorem lookupRepo_mergeItem_of_none (acc : List (String × github.SearchResult))
    (q : String) (i : github.CodeSearchResult) (R : String)
    (h : github.lookupRepo R acc = none) (hne : (i.repoFullName == R) = false) :
    github.lookupRepo R (github.mergeItem acc q i) = none := by
  unfold github.mergeItem
  by_cases hx : acc.any (fun e => e.1 == i.repoFullName) = true
  · rw [if_pos hx]; exact h
  · rw [if_neg hx]
    unfold github.lookupRepo
    rw [List.find?_append, lookupRepo_none_find_none acc R h]
    simp [List.find?_cons, hne]

theorem lookupRepo_mergeItem_add (acc : List (String × github.SearchResult))
    (q : String) (i : github.CodeSearchResult) (R : String)
    (h : github.lookupRepo R acc = none) (heq : (i.repoFullName == R) = true) :
    github.lookupRepo R (github.mergeItem acc q i) = some (github.resultOf q i) := by
  have heq' : i.repoFullName = R := by simpa using heq
  have hanyf : acc.any (fun e => e.1 == i.repoFullName) = false := by
    rw [heq', List.any_eq_false]
    intro e he'
    have := List.find?_eq_none.mp (lookupRepo_none_find_none acc R h) e he'
    simpa using this
  unfold github.mergeItem
  rw [if_neg (by rw [hanyf]; exact Bool.false_ne_true)]
  unfold github.lookupRepo
  rw [List.find?_append, lookupRepo_none_find_none acc R h]
  simp [List.find?_cons, heq]

theorem lookupRepo_mergeItems_find (hits : List (String × github.CodeSearchResult))
    (R : String) (h0 : String × github.CodeSearchResult)
    (hfind : hits.find? (fun h => h.2.repoFullName == R) = some h0) :
    ∀ acc, github.lookupRepo R acc = none →
      github.lookupRepo R (github.mergeItems acc hits) =
        some (github.resultOf h0.1 h0.2) := by
  induction hits with
  | nil => simp at hfind
  | cons hd tl ih =>
    intro acc hnone
    have hstep : github.mergeItems acc (hd :: tl) =
        github.mergeItems (github.mergeItem acc hd.1 hd.2) tl := rfl
    rw [hstep]
    by_cases hhd : (hd.2.repoFullName == R) = true
    · rw [show ((hd :: tl).find? (fun h => h.2.repoFullName == R)) = some hd from
        List.find?_cons_of_pos _ hhd] at hfind
      injection hfind with he
      subst he
      exact lookupRepo_mergeItems_some tl _ R _
        (lookupRepo_mergeItem_add acc hd.1 hd.2 R hnone hhd)
    · rw [show ((hd :: tl).find? (fun h => h.2.repoFullName == R)) =
          tl.find? (fun h => h.2.repoFullName == R) from
        List.find?_cons_of_neg _ hhd] at hfind
      exact ih hfind _
        (lookupRepo_mergeItem_of_none acc hd.1 hd.2 R hnone (by simpa using hhd))

/-- C5: in the dedup merge of the search stage, the first hit (queries in
declared order, pages and items in order) fixes a repository's stored file
path, file URL and match category, and later hits never overwrite an
existing entry; concretely, two queries both matching acme/app leave the
first query's attribution. -/
theorem c5_first_query_wins :
    (∀ (hits : List (String × github.CodeSearchResult)) (R : String)
        (h0 : String × github.CodeSearchResult),
      hits.find? (fun h => h.2.repoFullName == R) = some h0 →
      github.lookupRepo R (github.mergeItems [] hits) =
        some (github.resultOf h0.1 h0.2)) ∧
    (∀ acc q i R res, github.lookupRepo R acc = some res →
      github.lookupRepo R (github.mergeItem acc q i) = some res) ∧
    github.lookupRepo "acme/app"
        (github.mergeItems []
          [("Dockerfiles", { path := "Dockerfile", repoFullName := "acme/app" }),
           ("YAML/K8s", { path := "k8s.yaml", repoFullName := "acme/app" })]) =
      some { RepoFullName := "acme/app", FilePath := "Dockerfile",
             FileURL := "https://github.com/acme/app/blob/HEAD/Dockerfile",
             SourceType := "Dockerfiles" } := by
  refine ⟨?_, ?_, by decide⟩
  · intro hits R h0 hfind
    exact lookupRepo_mergeItems_find hits R h0 hfind [] rfl
  · intro acc q i R res h
    exact lookupRepo_mergeItem_some acc q i R res h

/-! ## Claim C8 -/

theorem lastPageAux_ge (env : Nat → Nat × Nat) :
    ∀ fuel page, page ≤ github.lastPageAux env fuel page := by
  intro fuel
  induction fuel with
  | zero => intro page; exact Nat.le_refl page
  | succ n ih =>
    intro page
    unfold github.lastPageAux
    split
    · exact Nat.le_refl _
    · split
      · exact Nat.le_refl _
      · split
        · exact Nat.le_refl _
        · exact Nat.le_trans (Nat.le_succ page) (ih (page + 1))

theorem lastPageAux_le10 (env : Nat → Nat × Nat) :
    ∀ fuel page, page ≤ 10 → github.lastPageAux env fuel page ≤ 10 := by
  intro fuel
  induction fuel with
  | zero => intro page h; exact h
  | succ n ih =>
    intro page h
    unfold github.lastPageAux
    split
    · exact h
    · split
      · exact h
      · split
        · exact h
        · rename_i h1 h2 h3
          exact ih (page + 1) (by omega)

theorem lastPageAux_stop (env : Nat → Nat × Nat) :
    ∀ fuel page, page ≤ 10 → 10 < page + fuel →
      (env (github.lastPageAux env fuel page)).1 < 100 ∨
      (env (github.lastPageAux env fuel page)).2 ≤ github.lastPageAux env fuel page * 100 ∨
      github.lastPageAux env fuel page = 10 := by
  intro fuel
  induction fuel with
  | zero => intro page h1 h2; exact (by omega : False).elim
  | succ n ih =>
    intro page hle hsum
    unfold github.lastPageAux
    split
    · rename_i h1; exact Or.inl h1
    · split
      · rename_i h1 h2; exact Or.inr (Or.inl h2)
      · split
        · rename_i h1 h2 h3
          exact Or.inr (Or.inr (by omega))
        · rename_i h1 h2 h3
          exact ih (page + 1) (by omega) (by omega)

theorem lastPageAux_min (env : Nat → Nat × Nat) :
    ∀ fuel page q, page ≤ q → q < github.lastPageAux env fuel page →
      ¬ (env q).1 < 100 ∧ q * 100 < (env q).2 := by
  intro fuel
  induction fuel with
  | zero =>
    intro page q h1 h2
    unfold github.lastPageAux at h2
    exact (by omega : False).elim
  | succ n ih =>
    intro page q hpq hlt
    unfold github.lastPageAux at hlt
    by_cases h1 : (env page).1 < 100
    · rw [if_pos h1] at hlt; exact (by omega : False).elim
    · rw [if_neg h1] at hlt
      by_cases h2 : (env page).2 ≤ page * 100
      · rw [if_pos h2] at hlt; exact (by omega : False).elim
      · rw [if_neg h2] at hlt
        by_cases h3 : 10 ≤ page
        · rw [if_pos h3] at hlt; exact (by omega : False).elim
        · rw [if_neg h3] at hlt
          rcases Nat.eq_or_lt_of_le hpq with heq | hlt2
          · subst heq
            exact ⟨h1, by omega⟩
          · exact ih (page + 1) q (by omega) hlt

theorem cumItems_succ (env : Nat → Nat × Nat) (q : Nat) :
    github.cumItems env (q + 1) = github.cumItems env q + (env (q + 1)).1 := by
  unfold github.cumItems
  rw [List.range_succ, List.foldl_append]
  rfl

theorem cumItems_full (env : Nat → Nat × Nat) :
    ∀ q, (∀ r, 1 ≤ r → r ≤ q → (env r).1 = 100) →
      github.cumItems env q = q * 100 := by
  intro q
  induction q with
  | zero => intro _; rfl
  | succ n ih =>
    intro h
    rw [cumItems_succ, ih (fun r h1 h2 => h r h1 (by omega)),
      h (n + 1) (by omega) (Nat.le_refl _)]
    omega

/-- C8: one query's pagination stops at a page between 1 and the hard
ceiling 10; at the stopping page either fewer than page-size (100) items
came back, or the cumulative item count has reached the response's
reported total, or the ceiling is hit; no earlier page satisfied a stop
condition (every earlier page returned exactly 100 items with the
cumulative count still below the reported total); and a query returning
exactly 100 items on every page with a reported total of 1500 stops at
page 10, not earlier. -/
theorem c8_pagination_stop (env : Nat → Nat × Nat) (henv : ∀ i, (env i).1 ≤ 100) :
    1 ≤ github.lastPage env ∧ github.lastPage env ≤ 10 ∧
    ((env (github.lastPage env)).1 < 100 ∨
      (env (github.lastPage env)).2 ≤ github.cumItems env (github.lastPage env) ∨
      github.lastPage env = 10) ∧
    (∀ q, 1 ≤ q → q < github.lastPage env →
      (env q).1 = 100 ∧ github.cumItems env q < (env q).2) ∧
    github.lastPage (fun _ => (100, 1500)) = 10 := by
  have hge : 1 ≤ github.lastPage env := lastPageAux_ge env 10 1
  have hle : github.lastPage env ≤ 10 := lastPageAux_le10 env 10 1 (by omega)
  have hmin : ∀ q, 1 ≤ q → q < github.lastPage env →
      ¬ (env q).1 < 100 ∧ q * 100 < (env q).2 :=
    fun q h1 h2 => lastPageAux_min env 10 1 q h1 h2
  have hminfull : ∀ q, q < github.lastPage env →
      ∀ r, 1 ≤ r → r ≤ q → (env r).1 = 100 := by
    intro q hq r h1 h2
    have hr := (hmin r h1 (by omega)).1
    have := henv r
    omega
  refine ⟨hge, hle, ?_, ?_, by decide⟩
  · rcases lastPageAux_stop env 10 1 (by omega) (by omega) with h | h | h
    · exact Or.inl h
    · by_cases hk : (env (github.lastPage env)).1 < 100
      · exact Or.inl hk
      · refine Or.inr (Or.inl ?_)
        have hfullp : ∀ r, 1 ≤ r → r ≤ github.lastPage env → (env r).1 = 100 := by
          intro r h1 h2
          rcases Nat.eq_or_lt_of_le h2 with heq | hlt
          · rw [heq]
            have := henv (github.lastPage env)
            omega
          · have := (hmin r h1 hlt).1
            have := henv r
            omega
        rw [cumItems_full env _ hfullp]
        exact h
    · exact Or.inr (Or.inr h)
  · intro q h1 h2
    have hm := hmin q h1 h2
    refine ⟨?_, ?_⟩
    · have := henv q
      omega
    · rw [cumItems_full env q (hminfull q h2)]
      exact hm.2

/-- C8 witness: the theorem applied to the constant environment where every
page returns exactly 100 items with a reported total of 1500. -/
theorem c8_witness :
    github.lastPage (fun _ => (100, 1500)) = 10 ∧
    1 ≤ github.lastPage (fun _ => (100, 1500)) :=
  ⟨(c8_pagination_stop (fun _ => (100, 1500)) (fun _ => Nat.le_refl 100)).2.2.2.2,
   (c8_pagination_stop (fun _ => (100, 1500)) (fun _ => Nat.le_refl 100)).1⟩

/-! ## Claim C3 -/

theorem runRefresh_flag_clear (env : api.RunEnv) (now : Int) (jid : Nat)
    (st : api.OrchState) : (api.runRefresh env now jid st).refreshRunning = false := by
  unfold api.runRefresh
  cases hf : env.fetch <;> cases hs : env.startWriteOk <;>
    simp [hf, hs, api.releaseFlag]

/-- C3: while the single-flight flag is set, the manual trigger answers
"already in progress" and the scheduled trigger answers `false`, both
leaving the state (flag and job table) untouched; the run itself clears
the flag on every exit path (its deferred release runs even for a panic);
and the trigger's own failure path (job insert fails) also leaves the flag
clear and the job table unchanged. -/
theorem c3_single_flight (st : api.OrchState) (createOk : Bool) (now : Int)
    (h : st.refreshRunning = true) :
    api.handleRefresh "POST" createOk now st =
      (api.RefreshResponse.alreadyInProgress, st) ∧
    api.TriggerRefresh createOk now st = (false, st) ∧
    (∀ env now2 jid st2, (api.runRefresh env now2 jid st2).refreshRunning = false) ∧
    (∀ st3 : api.OrchState, st3.refreshRunning = false →
      api.handleRefresh "POST" false now st3 =
        (api.RefreshResponse.serverError, st3) ∧
      api.TriggerRefresh false now st3 = (false, st3)) := by
  refine ⟨?_, ?_, fun env now2 jid st2 => runRefresh_flag_clear env now2 jid st2, ?_⟩
  · simp [api.handleRefresh, h]
  · simp [api.TriggerRefresh, h]
  · intro st3 h3
    obtain ⟨b, jobs, projects, snaps⟩ := st3
    replace h3 : b = false := h3
    subst h3
    exact ⟨by simp [api.handleRefresh], by simp [api.TriggerRefresh]⟩

/-- C3 witness: the theorem applied to a concrete state with the flag set. -/
theorem c3_witness :
    api.handleRefresh "POST" true 0
        { refreshRunning := true, jobs := [], projects := [], snapshots := 0 } =
      (api.RefreshResponse.alreadyInProgress,
        { refreshRunning := true, jobs := [], projects := [], snapshots := 0 }) :=
  (c3_single_flight
    { refreshRunning := true, jobs := [], projects := [], snapshots := 0 }
    true 0 rfl).1

/-! ## Claim C2 -/

theorem runRefresh_jobs_failure (env : api.RunEnv) (now : Int) (jid : Nat)
    (st : api.OrchState) (msg : String) (hstart : env.startWriteOk = true)
    (hfail : env.failWriteOk = true)
    (hf : env.fetch = api.FetchResult.failure msg) :
    (api.runRefresh env now jid st).jobs =
      db.FailRefreshJob jid msg now (db.StartRefreshJob jid now st.jobs) := by
  unfold api.runRefresh
  rw [hstart, hf]
  simp [hfail, api.releaseFlag]

theorem runRefresh_jobs_ok (env : api.RunEnv) (now : Int) (jid : Nat)
    (st : api.OrchState) (ps : List github.Project)
    (hstart : env.startWriteOk = true) (hcomplete : env.completeWriteOk = true)
    (hf : env.fetch = api.FetchResult.ok ps) :
    (api.runRefresh env now jid st).jobs =
      db.CompleteRefreshJob jid ps.length now (db.StartRefreshJob jid now st.jobs) := by
  unfold api.runRefresh
  rw [hstart, hf]
  by_cases hsnap : env.snapshotWriteOk = true
  · simp [hcomplete, hsnap, api.releaseFlag]
  · simp [hcomplete, hsnap, api.releaseFlag]

/-- C2 counterexample: a run whose StartRefreshJob write fails returns with
no terminal stamp — the job record stays `pending` forever (the claim says a
completion or failure stamp is written on every exit path). -/
theorem c2_counterexample :
    (api.runRefresh
      { startWriteOk := false, fetch := api.FetchResult.ok [],
        completeWriteOk := true, failWriteOk := true, snapshotWriteOk := true } 0 1
      { refreshRunning := true,
        jobs := [{ ID := 1, Status := "pending", StartedAt := none,
                   CompletedAt := none, ProjectsFound := 0, ErrorMessage := "",
                   CreatedAt := 0 }],
        projects := [], snapshots := 0 }).jobs =
      [{ ID := 1, Status := "pending", StartedAt := none, CompletedAt := none,
         ProjectsFound := 0, ErrorMessage := "", CreatedAt := 0 }] := by decide

/-- C2 amended: when the job-table writes succeed and the fetch does not
panic, every exit of the run stamps the job terminally — a fetch error
(the wall-clock timeout surfaces as one) marks it failed, success marks it
completed, both with a completion time; but when the write that marks the
job running fails, the run exits leaving the job pending with no stamp,
and a panicking fetch leaves it running (only the flag is released). -/
theorem c2_terminal_stamp (env : api.RunEnv) (now : Int) (jid : Nat)
    (st : api.OrchState) (j : db.RefreshJob) (hj : j ∈ st.jobs) (hid : j.ID = jid)
    (hstart : env.startWriteOk = true)
    (hcomplete : env.completeWriteOk = true)
    (hfail : env.failWriteOk = true)
    (hnopanic : env.fetch ≠ api.FetchResult.panicked) :
    ∃ j2 ∈ (api.runRefresh env now jid st).jobs,
      j2.ID = jid ∧ (j2.Status = "completed" ∨ j2.Status = "failed") ∧
      j2.CompletedAt = some now := by
  cases hf : env.fetch with
  | panicked => exact absurd hf hnopanic
  | failure msg =>
    rw [runRefresh_jobs_failure env now jid st msg hstart hfail hf]
    unfold db.FailRefreshJob db.StartRefreshJob db.updateJob
    refine ⟨_, List.mem_map_of_mem _ (List.mem_map_of_mem _ hj), ?_⟩
    simp [hid]
  | ok ps =>
    rw [runRefresh_jobs_ok env now jid st ps hstart hcomplete hf]
    unfold db.CompleteRefreshJob db.StartRefreshJob db.updateJob
    refine ⟨_, List.mem_map_of_mem _ (List.mem_map_of_mem _ hj), ?_⟩
    simp [hid]

/-- C2 witness: the amended theorem applied to a run that times out (the
fetch fails with the context's deadline error) over a concrete pending job. -/
theorem c2_witness :
    ∃ j2 ∈ (api.runRefresh
        { startWriteOk := true,
          fetch := api.FetchResult.failure "context deadline exceeded",
          completeWriteOk := true, failWriteOk := true, snapshotWriteOk := true } 5 1
        { refreshRunning := true,
          jobs := [{ ID := 1, Status := "pending", StartedAt := none,
                     CompletedAt := none, ProjectsFound := 0, ErrorMessage := "",
                     CreatedAt := 0 }],
          projects := [], snapshots := 0 }).jobs,
      j2.ID = 1 ∧ (j2.Status = "completed" ∨ j2.Status = "failed") ∧
      j2.CompletedAt = some 5 :=
  c2_terminal_stamp _ 5 1 _
    { ID := 1, Status := "pending", StartedAt := none, CompletedAt := none,
      ProjectsFound := 0, ErrorMessage := "", CreatedAt := 0 }
    (by simp) rfl rfl rfl rfl (by simp)

/-! ## Claim C6 -/

theorem searchPageAttempts_all_throttled :
    ∀ fuel i, github.searchPageAttempts (fun _ => github.ReqOutcome.rateLimited)
      (fun _ => false) fuel i = none := by
  intro fuel
  induction fuel with
  | zero => intro i; rfl
  | succ n ih =>
    intro i
    unfold github.searchPageAttempts
    simp [ih]

/-- C6 counterexample: no bound B makes the search-page retry loop leave
the throttling cycle within B requests for every environment — against an
endpoint that answers 403 forever (and no cancellation) the loop just
sleeps the cooldown and retries, so the number of retries of a throttled
search-page request is not bounded. -/
theorem c6_counterexample :
    ¬ ∃ B : Nat, ∀ (resp : Nat → github.ReqOutcome) (canceled : Nat → Bool),
        github.searchPageAttempts resp canceled B 0 ≠ none := by
  rintro ⟨B, hB⟩
  exact hB (fun _ => github.ReqOutcome.rateLimited) (fun _ => false)
    (searchPageAttempts_all_throttled B 0)

theorem searchPage_resolves_aux :
    ∀ (k fuel i : Nat) (resp : Nat → github.ReqOutcome),
      (∀ n, n < k → resp (i + n) = github.ReqOutcome.rateLimited) →
      resp (i + k) ≠ github.ReqOutcome.rateLimited → k < fuel →
      github.searchPageAttempts resp (fun _ => false) fuel i = some (i + k + 1) := by
  intro k
  induction k with
  | zero =>
    intro fuel i resp hthr hres hlt
    cases fuel with
    | zero => omega
    | succ n =>
      unfold github.searchPageAttempts
      cases hri : resp i with
      | rateLimited => exact absurd hri hres
      | ok => simp [hri]
      | otherError => simp [hri]
  | succ m ih =>
    intro fuel i resp hthr hres hlt
    cases fuel with
    | zero => omega
    | succ n =>
      unfold github.searchPageAttempts
      have h0 : resp i = github.ReqOutcome.rateLimited := by
        have := hthr 0 (by omega)
        simpa using this
      simp only [h0, Bool.false_eq_true, if_false]
      have hrec := ih n (i + 1) resp
        (fun n2 hn2 => by
          have := hthr (n2 + 1) (by omega)
          rw [show i + 1 + n2 = i + (n2 + 1) from by omega]
          exact this)
        (by
          rw [show i + 1 + m = i + (m + 1) from by omega]
          exact hres)
        (by omega)
      rw [show i + (m + 1) + 1 = i + 1 + m + 1 from by omega]
      exact hrec

/-- C6 amended: a throttled response is handled by sleeping the fixed
60-second cooldown and retrying — the enrichment metadata lookup retries
exactly once (two requests, one cooldown; success on the retry yields the
details, anything else skips the repository; a non-throttled first answer
makes exactly one request with no cooldown) — but the search-page request
is retried after each cooldown for as long as throttling lasts: k
consecutive throttled answers make exactly k + 1 requests, for every k, so
the number of search-page retries is bounded only by cancellation or the
throttling ending, not by a fixed retry budget. -/
theorem c6_throttle_retries (resp1 : Nat → github.DetailOutcome)
    (h1 : resp1 0 = github.DetailOutcome.rateLimited) :
    (github.fetchDetailsWithRetry resp1).2.1 = 2 ∧
    (github.fetchDetailsWithRetry resp1).2.2 = github.cooldownSeconds ∧
    (∀ d, resp1 1 = github.DetailOutcome.got d →
      (github.fetchDetailsWithRetry resp1).1 = some d) ∧
    ((resp1 1 = github.DetailOutcome.rateLimited ∨
        resp1 1 = github.DetailOutcome.otherError) →
      (github.fetchDetailsWithRetry resp1).1 = none) ∧
    (∀ resp : Nat → github.DetailOutcome,
      resp 0 ≠ github.DetailOutcome.rateLimited →
      (github.fetchDetailsWithRetry resp).2.1 = 1 ∧
      (github.fetchDetailsWithRetry resp).2.2 = 0) ∧
    (∀ (resp : Nat → github.ReqOutcome) (k fuel : Nat),
      (∀ n, n < k → resp n = github.ReqOutcome.rateLimited) →
      resp k ≠ github.ReqOutcome.rateLimited → k < fuel →
      github.searchPageAttempts resp (fun _ => false) fuel 0 = some (k + 1)) := by
  refine ⟨?_, ?_, ?_, ?_, ?_, ?_⟩
  · simp [github.fetchDetailsWithRetry, h1]
    cases h2 : resp1 1 <;> simp
  · simp [github.fetchDetailsWithRetry, h1]
    cases h2 : resp1 1 <;> simp
  · intro d h2
    simp [github.fetchDetailsWithRetry, h1, h2]
  · rintro (h2 | h2) <;> simp [github.fetchDetailsWithRetry, h1, h2]
  · intro resp h0
    cases hr : resp 0 with
    | rateLimited => exact absurd hr h0
    | got d => simp [github.fetchDetailsWithRetry, hr]
    | otherError => simp [github.fetchDetailsWithRetry, hr]
  · intro resp k fuel hthr hres hlt
    have := searchPage_resolves_aux k fuel 0 resp
      (fun n hn => by rw [Nat.zero_add]; exact hthr n hn)
      (by rw [Nat.zero_add]; exact hres) hlt
    rw [show (0 : Nat) + k + 1 = k + 1 from by omega] at this
    exact this

/-- C6 witness: the amended theorem applied to a metadata lookup whose
every answer is throttled: two requests, one 60-second cooldown, repo
skipped. -/
theorem c6_witness :
    (github.fetchDetailsWithRetry (fun _ => github.DetailOutcome.rateLimited)).2.1 = 2 ∧
    (github.fetchDetailsWithRetry (fun _ => github.DetailOutcome.rateLimited)).2.2 =
      github.cooldownSeconds :=
  ⟨(c6_throttle_retries (fun _ => github.DetailOutcome.rateLimited) rfl).1,
   (c6_throttle_retries (fun _ => github.DetailOutcome.rateLimited) rfl).2.1⟩

/-! ## Claim C1 -/

theorem fetchStep_log_no_commits (detailEnv : String → Nat → github.DetailOutcome)
    (acc : List github.Project × List github.ApiRequest)
    (entry : String × github.SearchResult)
    (h : acc.2.all (fun r => !github.isCommitHistoryReq r) = true) :
    (github.fetchStep detailEnv acc entry).2.all
      (fun r => !github.isCommitHistoryReq r) = true := by
  unfold github.fetchStep
  cases hd : (github.fetchDetailsWithRetry (detailEnv entry.1)).1 <;>
    simp only [hd, List.all_append, Bool.and_eq_true] <;>
    exact ⟨h, by simp [List.all_eq_true, github.isCommitHistoryReq]⟩

theorem fetchProjectsLoop_no_commits (detailEnv : String → Nat → github.DetailOutcome)
    (repos : List (String × github.SearchResult)) :
    (github.fetchProjectsLoop detailEnv repos).2.all
      (fun r => !github.isCommitHistoryReq r) = true := by
  unfold github.fetchProjectsLoop
  have h : ∀ acc : List github.Project × List github.ApiRequest,
      acc.2.all (fun r => !github.isCommitHistoryReq r) = true →
      (repos.foldl (github.fetchStep detailEnv) acc).2.all
        (fun r => !github.isCommitHistoryReq r) = true := by
    induction repos with
    | nil => exact fun acc hacc => hacc
    | cons hd tl ih =>
      exact fun acc hacc => ih _ (fetchStep_log_no_commits detailEnv acc hd hacc)
  exact h ([], []) rfl

/-- C1 (the code evaluated at the failing input): the enrichment stage of
FetchAllProjects issues no commit-history request for any input — the
adoption-date helper GetFileFirstCommit is never invoked by the run — and
a concrete run that discovers acme/app via the Dockerfiles query issues
exactly one repository-details request and persists a row holding only the
eight search/metadata columns plus the seen/created/updated timestamps:
no adoption timestamp and no adoption-commit link are computed or stored
anywhere in the pipeline. -/
theorem c1_no_adoption_fields :
    (∀ (detailEnv : String → Nat → github.DetailOutcome)
        (repos : List (String × github.SearchResult)),
      (github.fetchProjectsLoop detailEnv repos).2.all
        (fun r => !github.isCommitHistoryReq r) = true) ∧
    github.fetchProjectsLoop
        (fun _ _ => github.DetailOutcome.got
          { FullName := "acme/app", HTMLURL := "https://github.com/acme/app",
            Description := "demo", StargazersCount := 5, Language := "Go" })
        (github.mergeItems []
          [("Dockerfiles", { path := "Dockerfile", repoFullName := "acme/app" })]) =
      ([{ RepoFullName := "acme/app", GitHubURL := "https://github.com/acme/app",
          Stars := 5, Description := "demo", PrimaryLanguage := "Go",
          DockerfilePath := "Dockerfile",
          FileURL := "https://github.com/acme/app/blob/HEAD/Dockerfile",
          SourceType := "Dockerfiles" }],
       [github.ApiRequest.repoDetails "acme/app"]) ∧
    db.UpsertProject 0
        (api.toDbProject
          { RepoFullName := "acme/app", GitHubURL := "https://github.com/acme/app",
            Stars := 5, Description := "demo", PrimaryLanguage := "Go",
            DockerfilePath := "Dockerfile",
            FileURL := "https://github.com/acme/app/blob/HEAD/Dockerfile",
            SourceType := "Dockerfiles" }) [] =
      [{ RepoFullName := "acme/app", GitHubURL := "https://github.com/acme/app",
         Stars := 5, Description := "demo", PrimaryLanguage := "Go",
         DockerfilePath := "Dockerfile",
         FileURL := "https://github.com/acme/app/blob/HEAD/Dockerfile",
         SourceType := "Dockerfiles", FirstSeenAt := 0, LastSeenAt := 0,
         CreatedAt := 0, UpdatedAt := 0 }] := by
  exact ⟨fetchProjectsLoop_no_commits, by decide, by decide⟩

end DhiOss
